import Mathlib

/-!
Shallow embedding of the KYC repository's evidence-extraction and
decision-fusion core, together with proofs checking the specification's
claims against it.

Modelling conventions: Python floats are modelled as rationals (`ℚ`),
Python strings as `String`/`List Char`, `None` as `Option.none`.
Regular-expression character classes (`\d`, `\s`, `\w`, `[A-Z]`) are
modelled over ASCII, which is the range OCR text and the source's
patterns actually exercise.
-/

namespace KYC

/-! ## Decision fusion engine (final_kyc_api.py, verify_kyc lines 192-199) -/

inductive FinalStatus where
  | VERIFIED
  | REVIEW
  | REJECTED_DEEPFAKE
deriving DecidableEq

/-- Source: `status = "VERIFIED" if (score > 75 and age_status and not is_deepfake) else "REVIEW"`,
then `if is_deepfake: status = "REJECTED - DEEPFAKE DETECTED"`. -/
def decide_final_status (similarity_percent : ℚ) (age_verified : Bool)
    (is_deepfake : Bool) : FinalStatus :=
  let status : FinalStatus :=
    if 75 < similarity_percent ∧ age_verified = true ∧ is_deepfake = false then
      FinalStatus.VERIFIED
    else FinalStatus.REVIEW
  if is_deepfake = true then FinalStatus.REJECTED_DEEPFAKE else status

/-! ## Deepfake heuristic scorer (deepfake_detection.py) -/

structure DeepfakeMetrics where
  sharpness : ℚ
  noise_level : ℚ
  artifact_score : ℚ
  consistency_score : ℚ
  color_variance : ℚ

/-- Source `bell_score(x, center, width)` from calculate_deepfake_probability. -/
def bell_score (x center width : ℚ) : ℚ :=
  if width ≤ 0 then 0 else max 0 (1 - min (|x - center| / width) 1)

/-- sharpness_score with the `> 500` penalty. -/
def sharpness_subscore (x : ℚ) : ℚ :=
  let b := bell_score x 200 180
  if 500 < x then b * (1 / 2) else b

/-- noise_score with the `< 12` penalty (`*= 0.4`). -/
def noise_subscore (x : ℚ) : ℚ :=
  let b := bell_score x 25 15
  if x < 12 then b * (2 / 5) else b

/-- color_score with the `<30 or >70` penalty (`*= 0.6`). -/
def color_subscore (x : ℚ) : ℚ :=
  let b := bell_score x 45 20
  if x < 30 ∨ 70 < x then b * (3 / 5) else b

/-- artifact_score with the `< 3` penalty (`*= 0.5`). -/
def artifact_subscore (x : ℚ) : ℚ :=
  let b := bell_score x 8 10
  if x < 3 then b * (1 / 2) else b

/-- calculate_deepfake_probability: weighted authenticity, then `(1 - authenticity) * 100`. -/
def calculate_deepfake_probability (m : DeepfakeMetrics) : ℚ :=
  let authenticity :=
    sharpness_subscore m.sharpness * (15 / 100) +
    noise_subscore m.noise_level * (20 / 100) +
    artifact_subscore m.artifact_score * (30 / 100) +
    m.consistency_score * (25 / 100) +
    color_subscore m.color_variance * (10 / 100)
  (1 - authenticity) * 100

structure DeepfakeVerdict where
  is_deepfake : Bool
  deepfake_probability : ℚ
  confidence : ℚ

/-- detect_deepfake, scoring part (lines 207-211): probability, `> 45.0` threshold,
and `confidence = prob if is_deepfake else 100 - prob`. -/
def detect_deepfake_core (m : DeepfakeMetrics) : DeepfakeVerdict :=
  let p := calculate_deepfake_probability m
  { is_deepfake := decide (45 < p)
    deepfake_probability := p
    confidence := if 45 < p then p else 100 - p }

/-! ## Character classes: ASCII model of the Python regex classes `\w`, `\s`, `\d`, `[A-Z]` -/

def isWordChar (c : Char) : Bool := c.isAlpha || c.isDigit || c = '_'

def isSpaceChar (c : Char) : Bool :=
  c = ' ' || c = '\t' || c = '\n' || c = '\r' || c = '\x0b' || c = '\x0c'

def isUpperAlpha (c : Char) : Bool := 'A' ≤ c && c ≤ 'Z'

/-- Python `str.upper()` (ASCII range). -/
def pyUpper (s : String) : String := String.mk (s.data.map Char.toUpper)

/-! ## Tax-ID extraction (pan_validation.py): `re.search(r"[A-Z]{5}[0-9]{4}[A-Z]", text)` -/

/-- The fixed-length pattern `[A-Z]{5}[0-9]{4}[A-Z]` as a predicate on a
10-character window. -/
def isPanString (m : List Char) : Bool :=
  m.length = 10 && (m.take 5).all isUpperAlpha &&
    ((m.drop 5).take 4).all Char.isDigit && (m.drop 9).all isUpperAlpha

/-- Attempt of the (fixed-length-10) pattern at the head of `l`. -/
def pan_match_at (l : List Char) : Option (List Char) :=
  if isPanString (l.take 10) then some (l.take 10) else none

/-- Python `re.search`: leftmost position wins. -/
def pan_search : List Char → Option (List Char)
  | [] => none
  | c :: rest =>
    match pan_match_at (c :: rest) with
    | some m => some m
    | none => pan_search rest

/-- extract_pan_number: searches the raw `text` (the source applies no
case conversion before searching). -/
def extract_pan_number (text : String) : Option String :=
  (pan_search text.data).map String.mk

/-! ## ID-number extraction (aadhar_validation.py):
`re.search(r"\b\d{4}\s\d{4}\s\d{4}\b|\b\d{12}\b", text)` then `.replace(" ", "")` -/

/-- Leading `\b` state: `prev` is the character before the current position.
Both alternatives begin with `\d` (a word char), so the leading boundary holds
exactly when `prev` is absent or a non-word char. -/
def prevOk : Option Char → Bool
  | none => true
  | some c => !isWordChar c

/-- Trailing `\b` after a digit: the next character must be absent or non-word. -/
def endOk : List Char → Bool
  | [] => true
  | c :: _ => !isWordChar c

/-- Pattern `\d{4}\s\d{4}\s\d{4}` on a 14-character window. -/
def isSpacedAadhaar (m : List Char) : Bool :=
  m.length = 14 && (m.take 4).all Char.isDigit && ((m.drop 4).take 1).all isSpaceChar &&
    ((m.drop 5).take 4).all Char.isDigit && ((m.drop 9).take 1).all isSpaceChar &&
    (m.drop 10).all Char.isDigit

/-- Pattern `\d{12}` on a 12-character window. -/
def isBareAadhaar (m : List Char) : Bool := m.length = 12 && m.all Char.isDigit

/-- One position of `\b\d{4}\s\d{4}\s\d{4}\b|\b\d{12}\b`: the first alternative
is preferred, as in Python's alternation. -/
def aadhaar_match_at (prev : Option Char) (l : List Char) : Option (List Char) :=
  if prevOk prev then
    if isSpacedAadhaar (l.take 14) && endOk (l.drop 14) then some (l.take 14)
    else if isBareAadhaar (l.take 12) && endOk (l.drop 12) then some (l.take 12)
    else none
  else none

/-- Python `re.search` over the text, tracking the previous character for `\b`. -/
def aadhaar_search_aux : Option Char → List Char → Option (List Char)
  | _, [] => none
  | prev, c :: rest =>
    match aadhaar_match_at prev (c :: rest) with
    | some m => some m
    | none => aadhaar_search_aux (some c) rest

/-- extract_aadhaar_number: first match with `" "` separators stripped. -/
def extract_aadhaar_number (text : String) : Option String :=
  (aadhaar_search_aux none text.data).map
    (fun m => String.mk (m.filter (fun c => c ≠ ' ')))

/-! ## Date-of-birth extraction (aadhar_validation.py) -/

/-- Replacement table of clean_possible_dob (single-character replaces; values
are digits, never keys, so the sequential `str.replace` calls equal one map). -/
def dobReplChar (c : Char) : Char :=
  if c = 'o' ∨ c = 'O' then '0'
  else if c = 'b' ∨ c = 'B' then '8'
  else if c = 's' ∨ c = 'S' then '5'
  else if c = 'e' ∨ c = 'E' then '6'
  else if c = 'l' ∨ c = 'L' ∨ c = 'i' ∨ c = 'I' then '1'
  else if c = 'z' ∨ c = 'Z' then '2'
  else c

/-- Character class kept by `re.sub(r'[^0-9/\- ]', '', text)`. -/
def keepDobChar (c : Char) : Bool := c.isDigit || c = '/' || c = '-' || c = ' '

/-- clean_possible_dob. -/
def clean_possible_dob (l : List Char) : List Char :=
  (l.map dobReplChar).filter keepDobChar

def isSep (c : Char) : Bool := c = '/' || c = '-'

/-- A match of `(\d{1,2}[sep]\d{1,2}[sep]?\d{4})`, by component. -/
structure DateMatch where
  day : List Char
  sep1 : Char
  month : List Char
  sep2 : Option Char
  year : List Char

/-- The matched substring. -/
def DateMatch.render (dm : DateMatch) : List Char :=
  dm.day ++ dm.sep1 :: (dm.month ++
    (match dm.sep2 with | some c => [c] | none => []) ++ dm.year)

/-- One `\d`. -/
def takeDigit : List Char → Option (Char × List Char)
  | c :: l => if c.isDigit then some (c, l) else none
  | [] => none

def take2Digits (l : List Char) : Option (List Char × List Char) := do
  let (a, l1) ← takeDigit l
  let (b, l2) ← takeDigit l1
  pure ([a, b], l2)

def take1Digit (l : List Char) : Option (List Char × List Char) := do
  let (a, l1) ← takeDigit l
  pure ([a], l1)

def take4Digits (l : List Char) : Option (List Char × List Char) := do
  let (a, l1) ← takeDigit l
  let (b, l2) ← takeDigit l1
  let (c, l3) ← takeDigit l2
  let (d, l4) ← takeDigit l3
  pure ([a, b, c, d], l4)

/-- The suffix `[sep]?\d{4}`: the optional separator is consumed exactly when
present (if present and the alternative without it were tried, `\d{4}` would
start at the separator and fail, so the greedy choice is deterministic). -/
def dateSepYear (l : List Char) : Option (Option Char × List Char × List Char) :=
  match l with
  | c :: rest =>
    if isSep c then (take4Digits rest).map (fun p => (some c, p.1, p.2))
    else (take4Digits l).map (fun p => ((none : Option Char), p.1, p.2))
  | [] => none

/-- After the day digits: `[sep]\d{month}[sep]?\d{4}`. -/
def dateDayRest (takeM : List Char → Option (List Char × List Char))
    (d : List Char) : List Char → Option (DateMatch × List Char)
  | c :: l2 =>
    if isSep c then do
      let (m, l3) ← takeM l2
      let (s2, y, l4) ← dateSepYear l3
      pure ({ day := d, sep1 := c, month := m, sep2 := s2, year := y }, l4)
    else none
  | [] => none

/-- Pattern `\d{day}[sep]\d{month}[sep]?\d{4}` for one choice of day/month digit counts. -/
def dateDayTail (l : List Char)
    (takeD takeM : List Char → Option (List Char × List Char)) :
    Option (DateMatch × List Char) := do
  let (d, l1) ← takeD l
  dateDayRest takeM d l1

/-- One position of `(\d{1,2}[sep]\d{1,2}[sep]?\d{4})` in the regex engine's
greedy backtracking order: day two digits before one, month two before one. -/
def date_match_at (l : List Char) : Option (DateMatch × List Char) :=
  (dateDayTail l take2Digits take2Digits).orElse (fun _ =>
  (dateDayTail l take2Digits take1Digit).orElse (fun _ =>
  (dateDayTail l take1Digit take2Digits).orElse (fun _ =>
  dateDayTail l take1Digit take1Digit)))

/-- Python `re.search`, also reporting the start index and the remainder after the
match (for `finditer`). -/
def date_search_from : List Char → Nat → Option (Nat × DateMatch × List Char)
  | [], _ => none
  | c :: rest, i =>
    match date_match_at (c :: rest) with
    | some (dm, r) => some (i, dm, r)
    | none => date_search_from rest (i + 1)

def date_search (l : List Char) : Option DateMatch :=
  (date_search_from l 0).map (fun p => p.2.1)

/-- Python `finditer`: successive non-overlapping matches. Fuel-bounded recursion;
every match consumes at least seven characters, so `l.length + 1` fuel is
never exhausted. -/
def date_find_all_aux : Nat → List Char → Nat → List (Nat × DateMatch)
  | 0, _, _ => []
  | fuel + 1, l, i =>
    match date_search_from l i with
    | none => []
    | some (j, dm, rest) =>
      (j, dm) :: date_find_all_aux fuel rest (j + dm.render.length)

def date_find_all (l : List Char) : List (Nat × DateMatch) :=
  date_find_all_aux (l.length + 1) l 0

/-- Python `str.strip()`. -/
def pyStrip (l : List Char) : List Char :=
  ((l.dropWhile isSpaceChar).reverse.dropWhile isSpaceChar).reverse

/-- Python `str.split(sep)` for a one-character separator. -/
def splitOnChar (sep : Char) : List Char → List (List Char)
  | [] => [[]]
  | c :: rest =>
    match splitOnChar sep rest with
    | [] => [[]]
    | h :: t => if c = sep then [] :: h :: t else (c :: h) :: t

/-- Python `str.zfill(2)` on digit strings. -/
def zfill2 (l : List Char) : List Char := List.replicate (2 - l.length) '0' ++ l

def skipOptSep (l : List Char) : List Char :=
  match l with
  | c :: rest => if isSep c then rest else l
  | [] => []

/-- One digit-count choice of `(\d{1,2})[sep]?(\d{1,2})[sep]?(\d{4})`. -/
def norm_rx_go (l : List Char)
    (takeD takeM : List Char → Option (List Char × List Char)) :
    Option (List Char × List Char × List Char) := do
  let (d, l1) ← takeD l
  let l2 := skipOptSep l1
  let (m, l3) ← takeM l2
  let l4 := skipOptSep l3
  let (y, _) ← take4Digits l4
  pure (d, m, y)

/-- Pattern `(\d{1,2})[sep]?(\d{1,2})[sep]?(\d{4})` at one position, greedy order. -/
def norm_rx_at (l : List Char) : Option (List Char × List Char × List Char) :=
  (norm_rx_go l take2Digits take2Digits).orElse (fun _ =>
  (norm_rx_go l take2Digits take1Digit).orElse (fun _ =>
  (norm_rx_go l take1Digit take2Digits).orElse (fun _ =>
  norm_rx_go l take1Digit take1Digit)))

def norm_rx_search : List Char → Option (List Char × List Char × List Char)
  | [] => none
  | c :: rest => (norm_rx_at (c :: rest)).orElse (fun _ => norm_rx_search rest)

/-- _normalize_date after the preprocessing: the three-way split analysis on
the already dash-replaced, stripped string `s`. -/
def normalize_core (s : List Char) : List Char :=
  match splitOnChar '/' s with
  | [d, m, y] => zfill2 d ++ '/' :: (zfill2 m ++ '/' :: y)
  | [d, my] =>
    if my.length = 6 then
      zfill2 d ++ '/' :: (zfill2 (my.take 2) ++ '/' :: my.drop 2)
    else
      match norm_rx_search s with
      | some (d2, m2, y2) => zfill2 d2 ++ '/' :: (zfill2 m2 ++ '/' :: y2)
      | none => s
  | _ =>
    match norm_rx_search s with
    | some (d2, m2, y2) => zfill2 d2 ++ '/' :: (zfill2 m2 ++ '/' :: y2)
    | none => s

/-- _normalize_date: `-`→`/`, strip, then the split analysis. -/
def normalize_date (l : List Char) : List Char :=
  normalize_core (pyStrip (l.map (fun c => if c = '-' then '/' else c)))

/-- Python `int()` on the digit strings produced by normalization. -/
def parseNatDigits (l : List Char) : Option Nat :=
  if l ≠ [] ∧ l.all Char.isDigit then
    some (l.foldl (fun n c => n * 10 + (c.toNat - '0'.toNat)) 0)
  else none

/-- The labeled-branch acceptance test: `d, mo, y = norm.split('/')`, integer
parses, 1 ≤ day ≤ 31 and 1 ≤ month ≤ 12; any failure skips the candidate. -/
def validDayMonth (norm : List Char) : Bool :=
  match splitOnChar '/' norm with
  | [d, m, _] =>
    match parseNatDigits d, parseNatDigits m with
    | some di, some mi => 1 ≤ di && di ≤ 31 && 1 ≤ mi && mi ≤ 12
    | _, _ => false
  | _ => false

/-- The DOB-label alternatives of `\b(dob|date of birth|dateofbirth|d\.o\.b)\b`
(lower-cased; matching is case-insensitive). -/
def labelLits : List (List Char) :=
  ["dob".data, "date of birth".data, "dateofbirth".data, "d.o.b".data]

/-- Case-insensitive literal match, returning the rest of the text. -/
def litMatchCI : List Char → List Char → Option (List Char)
  | [], l => some l
  | _ :: _, [] => none
  | a :: lit, c :: l => if c.toLower = a then litMatchCI lit l else none

/-- One position of the label regex. Every alternative starts and ends with a
word character, so the surrounding `\b` tests reduce to `prevOk` and `endOk`. -/
def dob_label_at (prev : Option Char) (l : List Char) : Bool :=
  prevOk prev && labelLits.any (fun lit =>
    match litMatchCI lit l with
    | some rest => endOk rest
    | none => false)

def has_dob_label : Option Char → List Char → Bool
  | _, [] => false
  | prev, c :: rest => dob_label_at prev (c :: rest) || has_dob_label (some c) rest

def beginsWith : List Char → List Char → Bool
  | [], _ => true
  | _ :: _, [] => false
  | a :: pat, c :: l => a = c && beginsWith pat l

def containsSubstr : List Char → List Char → Bool
  | [], sub => sub.isEmpty
  | c :: rest, sub => beginsWith sub (c :: rest) || containsSubstr rest sub

/-- Source: `re.search(r'issue|issued|printed|valid from|expiry|exp', window, re.I)`. -/
def has_issue_keyword (w : List Char) : Bool :=
  let t := w.map Char.toLower
  containsSubstr t "issue".data || containsSubstr t "issued".data ||
  containsSubstr t "printed".data || containsSubstr t "valid from".data ||
  containsSubstr t "expiry".data || containsSubstr t "exp".data

/-- Python `str.splitlines()` over `\n`, `\r\n`, `\r` (the terminators OCR text
contains); a trailing terminator produces no final empty line. -/
def pySplitlinesAux : List Char → List Char → List (List Char)
  | acc, [] => [acc.reverse]
  | acc, '\r' :: '\n' :: rest =>
    acc.reverse :: (if rest = [] then [] else pySplitlinesAux [] rest)
  | acc, '\r' :: rest =>
    acc.reverse :: (if rest = [] then [] else pySplitlinesAux [] rest)
  | acc, '\n' :: rest =>
    acc.reverse :: (if rest = [] then [] else pySplitlinesAux [] rest)
  | acc, c :: rest => pySplitlinesAux (c :: acc) rest

def pySplitlines (l : List Char) : List (List Char) :=
  match l with
  | [] => []
  | _ => pySplitlinesAux [] l

/-- Per-character list of fuzzy digit substitutes (dict value order). -/
def ambOptions (c : Char) : List Char :=
  if c = 'o' ∨ c = 'O' then ['0']
  else if c = 'b' ∨ c = 'B' then ['8']
  else if c = 's' ∨ c = 'S' then ['5', '8']
  else if c = 'e' ∨ c = 'E' then ['8', '6']
  else if c = 'l' ∨ c = 'L' ∨ c = 'i' ∨ c = 'I' then ['1']
  else if c = 'z' ∨ c = 'Z' then ['2']
  else []

def isAmb (c : Char) : Bool := !(ambOptions c).isEmpty

/-- Python `itertools.product` over the option lists (rightmost position varies
fastest). -/
def cartProd : List (List Char) → List (List Char)
  | [] => [[]]
  | cs :: rest => cs.flatMap (fun c => (cartProd rest).map (fun combo => c :: combo))

/-- Substitute the successive combo characters at the ambiguous positions. -/
def applyCombo : List Char → List Char → List Char
  | [], _ => []
  | c :: cs, combo =>
    if isAmb c then
      match combo with
      | r :: combo' => r :: applyCombo cs combo'
      | [] => c :: applyCombo cs []
    else c :: applyCombo cs combo

/-- _generate_date_candidates with `max_comb = 64`: the loop appends and stops
once 64 candidates exist (`take 64` of the product), then appends the cleaned
original; with no ambiguous character it returns just the cleaned original. -/
def generate_date_candidates (raw_line : List Char) : List (List Char) :=
  if ((raw_line.filter isAmb).map ambOptions).isEmpty then
    [clean_possible_dob raw_line]
  else
    ((cartProd ((raw_line.filter isAmb).map ambOptions)).take 64).map
      (fun combo => clean_possible_dob (applyCombo raw_line combo)) ++
    [clean_possible_dob raw_line]

/-- One candidate of the labeled branch: search, normalize, range-check. -/
def try_candidate (cand : List Char) : Option (List Char) :=
  match date_search cand with
  | none => none
  | some dm =>
    if validDayMonth (normalize_date dm.render) then some (normalize_date dm.render)
    else none

def first_valid_candidate : List (List Char) → Option (List Char)
  | [] => none
  | c :: cs =>
    match try_candidate c with
    | some n => some n
    | none => first_valid_candidate cs

/-- The labeled-line loop of extract_dob. -/
def labeled_lines_scan : List (List Char) → Option (List Char)
  | [] => none
  | ln :: rest =>
    if has_dob_label none ln then
      match first_valid_candidate (generate_date_candidates ln) with
      | some n => some n
      | none => labeled_lines_scan rest
    else labeled_lines_scan rest

/-- Python slice `text[a:b]` with already-clamped start. -/
def pySlice (l : List Char) (a b : Nat) : List Char := (l.drop a).take (b - a)

/-- The fallback loop of extract_dob: skip matches whose ±20-character window
mentions an issue/expiry keyword; return the first survivor, normalized,
without range validation. -/
def fallback_scan (text : List Char) : List (Nat × DateMatch) → Option (List Char)
  | [] => none
  | (j, dm) :: rest =>
    if has_issue_keyword (pySlice text (j - 20) (j + dm.render.length + 20)) then
      fallback_scan text rest
    else some (normalize_date dm.render)

/-- extract_dob. -/
def extract_dob (text : String) : Option String :=
  match labeled_lines_scan (pySplitlines text.data) with
  | some n => some (String.mk n)
  | none => (fallback_scan text.data (date_find_all text.data)).map String.mk

/-! ## Age check (aadhar_validation.py, is_age_above_18) -/

/-- CPython `_strptime` field `%d` (pattern `3[01]|[12]\d|0[1-9]|[1-9]`): one or two
digits with value 1..31. -/
def dayField (l : List Char) : Option Nat :=
  match parseNatDigits l with
  | some v => if (l.length = 1 ∨ l.length = 2) ∧ 1 ≤ v ∧ v ≤ 31 then some v else none
  | none => none

/-- CPython `_strptime` field `%m` (pattern `1[0-2]|0[1-9]|[1-9]`). -/
def monthField (l : List Char) : Option Nat :=
  match parseNatDigits l with
  | some v => if (l.length = 1 ∨ l.length = 2) ∧ 1 ≤ v ∧ v ≤ 12 then some v else none
  | none => none

/-- CPython `_strptime` field `%Y` (pattern `\d\d\d\d`: exactly four digits). -/
def yearField (l : List Char) : Option Nat :=
  match parseNatDigits l with
  | some v => if l.length = 4 then some v else none
  | none => none

def isLeapYear (y : Nat) : Bool := (y % 4 = 0 && y % 100 ≠ 0) || y % 400 = 0

def daysInMonth (m y : Nat) : Nat :=
  if m = 2 then (if isLeapYear y then 29 else 28)
  else if m = 4 ∨ m = 6 ∨ m = 9 ∨ m = 11 then 30
  else 31

/-- Python `datetime.strptime(s, "%d/%m/%Y")`, date part: the composite field regex
must consume the whole string and `datetime` validates the calendar date
(year ≥ 1, day within the month). -/
def strptime_dmY (l : List Char) : Option (Nat × Nat × Nat) :=
  match splitOnChar '/' l with
  | [d, m, y] =>
    match dayField d, monthField m, yearField y with
    | some dv, some mv, some yv =>
      if 1 ≤ yv ∧ dv ≤ daysInMonth mv yv then some (dv, mv, yv) else none
    | _, _, _ => none
  | _ => none

def daysBeforeYear (y : Nat) : Nat :=
  365 * (y - 1) + (y - 1) / 4 - (y - 1) / 100 + (y - 1) / 400

def daysBeforeMonth (m y : Nat) : Nat :=
  [0, 31, 59, 90, 120, 151, 181, 212, 243, 273, 304, 334].getD (m - 1) 0 +
    (if 2 < m ∧ isLeapYear y then 1 else 0)

/-- Python `date.toordinal`: proleptic Gregorian day number, 0001-01-01 ↦ 1. -/
def toOrdinal (y m d : Nat) : Nat := daysBeforeYear y + daysBeforeMonth m y + d

/-- is_age_above_18 with the ambient `datetime.now()` made explicit as the
current date's ordinal: `-`→`/`, strict parse, `(now - dob).days // 365 >= 18`;
parse failure yields false (the `except` branch). -/
def is_age_above_18 (dob_str : String) (nowOrd : ℤ) : Bool :=
  match strptime_dmY (dob_str.data.map (fun c => if c = '-' then '/' else c)) with
  | none => false
  | some (d, m, y) => 18 ≤ (nowOrd - (toOrdinal y m d : ℤ)).fdiv 365

/-- Canonical shape `\d{2}/\d{2}/\d{4}`. -/
def isDDMMYYYY (v : List Char) : Bool :=
  match v with
  | [d1, d2, s1, m1, m2, s2, y1, y2, y3, y4] =>
    d1.isDigit && d2.isDigit && s1 = '/' && m1.isDigit && m2.isDigit && s2 = '/' &&
      y1.isDigit && y2.isDigit && y3.isDigit && y4.isDigit
  | _ => false

/-! Specification predicates describing the structure of date-pattern matches. -/

/-- One or two digit characters (`\d{1,2}`). -/
def Digits12 (l : List Char) : Prop :=
  (∃ a, l = [a] ∧ a.isDigit = true) ∨
  (∃ a b, l = [a, b] ∧ a.isDigit = true ∧ b.isDigit = true)

/-- Exactly four digit characters (`\d{4}`). -/
def Digits4 (l : List Char) : Prop :=
  ∃ a b c d, l = [a, b, c, d] ∧ a.isDigit = true ∧ b.isDigit = true ∧
    c.isDigit = true ∧ d.isDigit = true

/-- The optional separator group, a separator when present. -/
def SepOpt : Option Char → Prop
  | none => True
  | some c => isSep c = true

/-- What every successful match of the date pattern looks like. -/
def StructOK (dm : DateMatch) : Prop :=
  Digits12 dm.day ∧ isSep dm.sep1 = true ∧ Digits12 dm.month ∧
    SepOpt dm.sep2 ∧ Digits4 dm.year

/-! ## Slot validation (kyc_input_checks.py) -/

/-- Source: `len(re.sub(r"[^A-Za-z0-9]", "", s))`. -/
def alnum_len (s : String) : Nat :=
  (s.data.filter (fun c => c.isAlpha || c.isDigit)).length

def looks_like_pan_text (text : String) : Bool :=
  if text = "" then false else (pan_search (pyUpper text).data).isSome

def looks_like_aadhaar_text (text : String) : Bool :=
  if text = "" then false else (aadhaar_search_aux none text.data).isSome

def selfie_looks_like_document (text : String) : Bool :=
  if text = "" then false
  else
    let t := pyUpper text
    if looks_like_pan_text t || looks_like_aadhaar_text t then true
    else 35 ≤ alnum_len t

/-- Python truthiness of an optional string: `None` and `""` are falsy. -/
def falsyOpt : Option String → Bool
  | none => true
  | some s => s = ""

def msgAadhaarSlot : String :=
  "Aadhaar upload does not look like an Aadhaar card (Aadhaar number/DOB not detected)."

def msgPanSlot : String :=
  "PAN upload does not look like a PAN card (PAN number not detected)."

def msgNoFace : String :=
  "Selfie upload must be a clear face photo (no face detected)."

def msgSelfieDocument : String :=
  "Selfie upload looks like an ID/document photo (text/ID patterns detected). Please upload a real face selfie."

/-- validate_kyc_slots: the four checks accumulate issues in a fixed order. -/
def validate_kyc_slots (aadhaar_no dob pan_no : Option String)
    (selfie_text : String) (selfie_has_face : Bool) : List String :=
  (if falsyOpt aadhaar_no || falsyOpt dob then [msgAadhaarSlot] else []) ++
  (if falsyOpt pan_no then [msgPanSlot] else []) ++
  (if selfie_has_face = false then [msgNoFace] else []) ++
  (if selfie_looks_like_document selfie_text then [msgSelfieDocument] else [])

end KYC

namespace KYC

/-- C1: whenever `is_deepfake` is true the fused status is REJECTED_DEEPFAKE,
irrespective of similarity and age. -/
theorem deepfake_overrides_all (similarity_percent : ℚ) (age_verified : Bool) :
    decide_final_status similarity_percent age_verified true =
      FinalStatus.REJECTED_DEEPFAKE := by
  simp [decide_final_status]

/-- C2: at `similarity_percent = 75` exactly, with age verified and no deepfake,
the decision is REVIEW, not VERIFIED (strict inequality boundary). -/
theorem similarity_75_boundary_review :
    decide_final_status 75 true false = FinalStatus.REVIEW := by
  norm_num [decide_final_status]

theorem bell_score_nonneg (x c w : ℚ) : 0 ≤ bell_score x c w := by
  unfold bell_score
  split_ifs with h
  · exact le_refl 0
  · exact le_max_left 0 _

theorem bell_score_le_one (x c w : ℚ) : bell_score x c w ≤ 1 := by
  unfold bell_score
  split_ifs with h
  · norm_num
  · apply max_le
    · norm_num
    · have hmin : (0:ℚ) ≤ min (|x - c| / w) 1 := by
        apply le_min
        · exact div_nonneg (abs_nonneg _) (le_of_not_le h)
        · norm_num
      linarith

theorem sharpness_subscore_bounds (x : ℚ) :
    0 ≤ sharpness_subscore x ∧ sharpness_subscore x ≤ 1 := by
  unfold sharpness_subscore
  have h0 := bell_score_nonneg x 200 180
  have h1 := bell_score_le_one x 200 180
  split_ifs <;> constructor <;> nlinarith

theorem noise_subscore_bounds (x : ℚ) :
    0 ≤ noise_subscore x ∧ noise_subscore x ≤ 1 := by
  unfold noise_subscore
  have h0 := bell_score_nonneg x 25 15
  have h1 := bell_score_le_one x 25 15
  split_ifs <;> constructor <;> nlinarith

theorem color_subscore_bounds (x : ℚ) :
    0 ≤ color_subscore x ∧ color_subscore x ≤ 1 := by
  unfold color_subscore
  have h0 := bell_score_nonneg x 45 20
  have h1 := bell_score_le_one x 45 20
  split_ifs <;> constructor <;> nlinarith

theorem artifact_subscore_bounds (x : ℚ) :
    0 ≤ artifact_subscore x ∧ artifact_subscore x ≤ 1 := by
  unfold artifact_subscore
  have h0 := bell_score_nonneg x 8 10
  have h1 := bell_score_le_one x 8 10
  split_ifs <;> constructor <;> nlinarith

/-- C9: with `consistency_score ∈ [0,1]`, the scorer's probability and confidence
both lie in `[0,100]`. -/
theorem deepfake_scorer_bounds (m : DeepfakeMetrics)
    (hc0 : 0 ≤ m.consistency_score) (hc1 : m.consistency_score ≤ 1) :
    0 ≤ (detect_deepfake_core m).deepfake_probability ∧
    (detect_deepfake_core m).deepfake_probability ≤ 100 ∧
    0 ≤ (detect_deepfake_core m).confidence ∧
    (detect_deepfake_core m).confidence ≤ 100 := by
  obtain ⟨hs0, hs1⟩ := sharpness_subscore_bounds m.sharpness
  obtain ⟨hn0, hn1⟩ := noise_subscore_bounds m.noise_level
  obtain ⟨ha0, ha1⟩ := artifact_subscore_bounds m.artifact_score
  obtain ⟨hv0, hv1⟩ := color_subscore_bounds m.color_variance
  have hp0 : 0 ≤ calculate_deepfake_probability m := by
    unfold calculate_deepfake_probability
    nlinarith
  have hp1 : calculate_deepfake_probability m ≤ 100 := by
    unfold calculate_deepfake_probability
    nlinarith
  refine ⟨hp0, hp1, ?_, ?_⟩ <;>
    · simp only [detect_deepfake_core]
      split_ifs <;> linarith

/-- C9 witness: the bounds theorem applied at the concrete metric vector
(200, 25, 8, 1/2, 45). -/
theorem deepfake_scorer_bounds_witness :
    0 ≤ (detect_deepfake_core ⟨200, 25, 8, 1/2, 45⟩).deepfake_probability ∧
    (detect_deepfake_core ⟨200, 25, 8, 1/2, 45⟩).deepfake_probability ≤ 100 ∧
    0 ≤ (detect_deepfake_core ⟨200, 25, 8, 1/2, 45⟩).confidence ∧
    (detect_deepfake_core ⟨200, 25, 8, 1/2, 45⟩).confidence ≤ 100 :=
  deepfake_scorer_bounds ⟨200, 25, 8, 1/2, 45⟩ (by norm_num) (by norm_num)

/-- C10: slot validation returns a sublist of the four fixed messages (hence at
most four issues, no duplicates, fixed order), and each message appears exactly
when its own trigger condition holds, independently of the other conditions. -/
theorem validate_kyc_slots_spec (aadhaar_no dob pan_no : Option String)
    (selfie_text : String) (selfie_has_face : Bool) :
    List.Sublist (validate_kyc_slots aadhaar_no dob pan_no selfie_text selfie_has_face)
      [msgAadhaarSlot, msgPanSlot, msgNoFace, msgSelfieDocument] ∧
    (validate_kyc_slots aadhaar_no dob pan_no selfie_text selfie_has_face).Nodup ∧
    (validate_kyc_slots aadhaar_no dob pan_no selfie_text selfie_has_face).length ≤ 4 ∧
    (msgAadhaarSlot ∈ validate_kyc_slots aadhaar_no dob pan_no selfie_text selfie_has_face ↔
      (falsyOpt aadhaar_no || falsyOpt dob) = true) ∧
    (msgPanSlot ∈ validate_kyc_slots aadhaar_no dob pan_no selfie_text selfie_has_face ↔
      falsyOpt pan_no = true) ∧
    (msgNoFace ∈ validate_kyc_slots aadhaar_no dob pan_no selfie_text selfie_has_face ↔
      selfie_has_face = false) ∧
    (msgSelfieDocument ∈ validate_kyc_slots aadhaar_no dob pan_no selfie_text selfie_has_face ↔
      selfie_looks_like_document selfie_text = true) := by
  unfold validate_kyc_slots
  cases h1 : (falsyOpt aadhaar_no || falsyOpt dob) <;>
    cases h2 : falsyOpt pan_no <;>
      cases h3 : selfie_has_face <;>
        cases h4 : selfie_looks_like_document selfie_text <;>
          simp only [h1, h2, h3, h4, if_true, if_false, Bool.false_eq_true,
            Bool.true_eq_false, ite_true, ite_false] <;> decide

/-! ### C5: tax-ID extraction -/

/-- C5 counterexample: the uppercased text `"ABCDE1234F"` contains a pattern
match, but extraction on the raw lowercase text returns nothing — the source
searches the raw text, not the uppercased text. -/
theorem extract_tax_id_counterexample :
    extract_pan_number "abcde1234f" = none ∧
    pan_search (pyUpper "abcde1234f").data = some "ABCDE1234F".data := by
  constructor <;> decide

theorem pan_search_none_iff (l : List Char) :
    pan_search l = none ↔ ∀ i, isPanString ((l.drop i).take 10) = false := by
  induction l with
  | nil =>
    simp only [pan_search, true_iff]
    intro i
    simp [List.drop_nil]
    decide
  | cons c rest ih =>
    simp only [pan_search, pan_match_at]
    split_ifs with h
    · constructor
      · intro hc; exact absurd hc (by simp)
      · intro hall
        have := hall 0
        rw [List.drop_zero] at this
        rw [h] at this
        exact absurd this (by simp)
    · rw [ih]
      constructor
      · intro hall i
        cases i with
        | zero =>
          rw [List.drop_zero]
          exact Bool.not_eq_true _ ▸ (by simpa using h)
        | succ j =>
          rw [List.drop_succ_cons]
          exact hall j
      · intro hall j
        have := hall (j + 1)
        rwa [List.drop_succ_cons] at this

theorem pan_search_some (l : List Char) (m : List Char) (h : pan_search l = some m) :
    isPanString m = true ∧
      ∃ i, (l.drop i).take 10 = m ∧
        ∀ j < i, isPanString ((l.drop j).take 10) = false := by
  induction l generalizing m with
  | nil => simp [pan_search] at h
  | cons c rest ih =>
    rw [pan_search] at h
    cases hm : pan_match_at (c :: rest) with
    | some m' =>
      rw [hm] at h
      cases h
      unfold pan_match_at at hm
      split_ifs at hm with hp
      · cases hm
        refine ⟨hp, 0, by rw [List.drop_zero], ?_⟩
        intro j hj
        omega
    | none =>
      rw [hm] at h
      obtain ⟨hshape, i, hi, hlt⟩ := ih m h
      refine ⟨hshape, i + 1, by rwa [List.drop_succ_cons], ?_⟩
      intro j hj
      cases j with
      | zero =>
        rw [List.drop_zero]
        unfold pan_match_at at hm
        split_ifs at hm with hp
        · exact Bool.not_eq_true _ ▸ (by simpa using hp)
      | succ k =>
        rw [List.drop_succ_cons]
        exact hlt k (by omega)

/-- C5 amended: extraction searches the raw text case-sensitively — it returns
`none` exactly when no 10-character window of the raw text matches
5 uppercase letters, 4 digits, 1 uppercase letter, and otherwise returns the
leftmost such window. -/
theorem extract_tax_id_raw_text_characterization (text : String) :
    (extract_pan_number text = none ↔
      ∀ i, isPanString ((text.data.drop i).take 10) = false) ∧
    (∀ m, extract_pan_number text = some m →
      isPanString m.data = true ∧
        ∃ i, (text.data.drop i).take 10 = m.data ∧
          ∀ j < i, isPanString ((text.data.drop j).take 10) = false) := by
  constructor
  · rw [show (extract_pan_number text = none) ↔ (pan_search text.data = none) by
      unfold extract_pan_number; cases pan_search text.data <;> simp]
    exact pan_search_none_iff text.data
  · intro m hm
    unfold extract_pan_number at hm
    cases hl : pan_search text.data with
    | none => rw [hl] at hm; exact absurd hm (by simp)
    | some l =>
      rw [hl] at hm
      simp only [Option.map_some'] at hm
      have hdata : m.data = l := by
        injection hm with hm'
        subst hm'
        rfl
      rw [hdata]
      exact pan_search_some text.data l hl

/-- C5 witness: the characterization applied to the concrete text
`" ABCDE1234F!"`, whose extraction result is `"ABCDE1234F"`. -/
theorem extract_tax_id_characterization_witness :
    isPanString "ABCDE1234F".data = true ∧
      ∃ i, ((" ABCDE1234F!" : String).data.drop i).take 10 = "ABCDE1234F".data ∧
        ∀ j < i, isPanString (((" ABCDE1234F!" : String).data.drop j).take 10) = false :=
  (extract_tax_id_raw_text_characterization " ABCDE1234F!").2 "ABCDE1234F" (by decide)

/-! ### C4: ID-number extraction -/

/-- C4 counterexample: `"a1234 5678 9012"` contains `"1234 5678 9012"` embedded
after the word character `a`, yet extraction returns nothing — the source
pattern requires `\b` word boundaries around the digits. -/
theorem extract_id_number_counterexample :
    ("a1234 5678 9012" : String) = String.mk ("a".data ++ "1234 5678 9012".data) ∧
    extract_aadhaar_number "a1234 5678 9012" = none := by
  constructor <;> decide

theorem aadhaar_match_at_none_of_not_digit (prev : Option Char) (c : Char)
    (rest : List Char) (hc : c.isDigit = false) :
    aadhaar_match_at prev (c :: rest) = none := by
  unfold aadhaar_match_at
  rw [show (c :: rest).take 14 = c :: rest.take 13 from rfl,
    show (c :: rest).take 12 = c :: rest.take 11 from rfl]
  have hspaced : isSpacedAadhaar (c :: rest.take 13) = false := by
    unfold isSpacedAadhaar
    rw [show (c :: rest.take 13).take 4 = c :: (rest.take 13).take 3 from rfl]
    simp [hc]
  have hbare : isBareAadhaar (c :: rest.take 11) = false := by
    unfold isBareAadhaar
    simp [hc]
  rw [hspaced, hbare]
  simp

theorem aadhaar_search_skip (p : List Char) :
    (∀ c ∈ p, isWordChar c = false) → ∀ (prev : Option Char), prevOk prev = true →
      ∀ z, ∃ prev', aadhaar_search_aux prev (p ++ z) = aadhaar_search_aux prev' z ∧
        prevOk prev' = true := by
  induction p with
  | nil =>
    intro _ prev hprev z
    exact ⟨prev, rfl, hprev⟩
  | cons c p' ih =>
    intro hp prev hprev z
    have hcw : isWordChar c = false := hp c (List.mem_cons_self c p')
    have hcd : c.isDigit = false := by
      revert hcw; unfold isWordChar; cases c.isDigit <;> simp
    have hstep : aadhaar_search_aux prev ((c :: p') ++ z) =
        aadhaar_search_aux (some c) (p' ++ z) := by
      rw [List.cons_append, aadhaar_search_aux,
        aadhaar_match_at_none_of_not_digit prev c (p' ++ z) hcd]
    rw [hstep]
    exact ih (fun d hd => hp d (List.mem_cons_of_mem c hd)) (some c)
      (by simp [prevOk, hcw]) z

theorem aadhaar_search_aux_of_match (prev : Option Char) (l m : List Char)
    (hnil : l ≠ []) (hm : aadhaar_match_at prev l = some m) :
    aadhaar_search_aux prev l = some m := by
  cases l with
  | nil => exact absurd rfl hnil
  | cons c rest => rw [aadhaar_search_aux, hm]

theorem aadhaar_match_spaced (prev : Option Char) (hprev : prevOk prev = true)
    (s : List Char) (hs : endOk s = true) :
    aadhaar_match_at prev ("1234 5678 9012".data ++ s) = some "1234 5678 9012".data := by
  have h14 : ("1234 5678 9012".data ++ s).take 14 = "1234 5678 9012".data :=
    List.take_left' (by rfl)
  have h14' : ("1234 5678 9012".data ++ s).drop 14 = s := List.drop_left' (by rfl)
  have hconc : isSpacedAadhaar ("1234 5678 9012".data) = true := by decide
  unfold aadhaar_match_at
  simp [hprev, h14, h14', hs, hconc]

theorem aadhaar_match_bare (prev : Option Char) (hprev : prevOk prev = true)
    (s : List Char) (hs : endOk s = true) :
    aadhaar_match_at prev ("123456789012".data ++ s) = some "123456789012".data := by
  have h12 : ("123456789012".data ++ s).take 12 = "123456789012".data :=
    List.take_left' (by rfl)
  have h12' : ("123456789012".data ++ s).drop 12 = s := List.drop_left' (by rfl)
  have hkey : ((("123456789012".data ++ s).take 14).drop 4).take 1 = ['5'] := by
    rw [List.drop_take, List.take_take]
    rw [show min 1 10 = 1 from rfl]
    rw [show ("123456789012".data ++ s).drop 4 = "56789012".data ++ s from rfl]
    rw [show ("56789012".data ++ s).take 1 = ['5'] from rfl]
  have hspaced : isSpacedAadhaar (("123456789012".data ++ s).take 14) = false := by
    unfold isSpacedAadhaar
    rw [hkey, show (['5'].all isSpaceChar) = false from by decide]
    simp
  have hbare : isBareAadhaar ("123456789012".data) = true := by decide
  unfold aadhaar_match_at
  simp only [hprev, hspaced, h12, h12', hs, hbare, Bool.false_and, Bool.and_self,
    if_true, if_false, ite_true, ite_false, Bool.true_and, Bool.and_true]
  simp

/-- C4 amended: when `"1234 5678 9012"` or `"123456789012"` is embedded with a
word boundary on each side — every preceding character non-word, and the first
following character (if any) non-word — extraction returns `"123456789012"`. -/
theorem extract_id_number_at_word_boundaries (p s : List Char)
    (hp : ∀ c ∈ p, isWordChar c = false) (hs : endOk s = true) :
    extract_aadhaar_number (String.mk (p ++ ("1234 5678 9012".data ++ s))) =
      some "123456789012" ∧
    extract_aadhaar_number (String.mk (p ++ ("123456789012".data ++ s))) =
      some "123456789012" := by
  constructor
  · unfold extract_aadhaar_number
    obtain ⟨prev', heq, hok⟩ := aadhaar_search_skip p hp none rfl ("1234 5678 9012".data ++ s)
    rw [show (String.mk (p ++ ("1234 5678 9012".data ++ s))).data =
      p ++ ("1234 5678 9012".data ++ s) from rfl]
    rw [heq]
    rw [aadhaar_search_aux_of_match prev' _ _ (by simp)
      (aadhaar_match_spaced prev' hok s hs)]
    simp only [Option.map_some']
    rw [show String.mk ("1234 5678 9012".data.filter (fun c => c ≠ ' ')) =
      "123456789012" from by decide]
  · unfold extract_aadhaar_number
    obtain ⟨prev', heq, hok⟩ := aadhaar_search_skip p hp none rfl ("123456789012".data ++ s)
    rw [show (String.mk (p ++ ("123456789012".data ++ s))).data =
      p ++ ("123456789012".data ++ s) from rfl]
    rw [heq]
    rw [aadhaar_search_aux_of_match prev' _ _ (by simp)
      (aadhaar_match_bare prev' hok s hs)]
    simp only [Option.map_some']
    rw [show String.mk ("123456789012".data.filter (fun c => c ≠ ' ')) =
      "123456789012" from by decide]

/-- C4 witness: the amended theorem at `p = " "`, `s = "."`. -/
theorem extract_id_number_at_word_boundaries_witness :
    extract_aadhaar_number (String.mk (" ".data ++ ("1234 5678 9012".data ++ ".".data))) =
      some "123456789012" ∧
    extract_aadhaar_number (String.mk (" ".data ++ ("123456789012".data ++ ".".data))) =
      some "123456789012" :=
  extract_id_number_at_word_boundaries " ".data ".".data (by decide) (by decide)

/-! ### C8: bounded fuzzy candidate generation -/

/-- C8: candidate generation always yields at most 65 candidates — at most 64
substitution candidates plus the always-included cleaned original — so each
extraction call examines a bounded number of candidates. -/
theorem generate_date_candidates_bounded (raw_line : List Char) :
    (generate_date_candidates raw_line).length ≤ 65 ∧
      clean_possible_dob raw_line ∈ generate_date_candidates raw_line := by
  unfold generate_date_candidates
  split_ifs with h
  · exact ⟨by simp, by simp⟩
  · refine ⟨?_, List.mem_append_right _ (List.mem_singleton.mpr rfl)⟩
    rw [List.length_append, List.length_map]
    have hle := List.length_take_le 64
      (cartProd ((raw_line.filter isAmb).map ambOptions))
    simp only [List.length_singleton]
    omega

/-! ### C3: fuzzy DOB extraction on the sample line -/

/-- C3 counterexample: with the OCR-corrupted label `"D0B"` (digit zero, not
the letter O) the label regex — which runs on the raw line, before any fuzzy
substitution — does not select the line, and the raw-text fallback finds no
date shape either (`02-O1-1995` has a letter inside), so extraction returns
nothing rather than `"02/01/1995"`. -/
theorem extract_dob_d0b_counterexample :
    extract_dob "D0B: 02-O1-1995" = none := by decide

/-- C3 amended: with the label spelled `"DOB"` the line is selected via the
label regex, fuzzy substitution repairs `O1` to `01`, and extraction returns
`"02/01/1995"`. -/
theorem extract_dob_fuzzy_labeled_line :
    extract_dob "DOB: 02-O1-1995" = some "02/01/1995" := by decide

/-! ### C6 counterexample: no range validation in the fallback branch -/

/-- C6 counterexample: on an unlabeled text the fallback branch performs no
day/month range check — extraction returns `"99/99/1995"`, whose day component
99 fails the source's own 1..31 range test. -/
theorem extract_dob_fallback_range_counterexample :
    extract_dob "99/99/1995" = some "99/99/1995" ∧
    validDayMonth ("99/99/1995".data) = false := by
  constructor <;> decide

/-! ### C6 amended: every extracted value has shape DD/MM/YYYY.
Helper lemmas about the date matcher and the normalizer. -/

theorem takeDigit_spec (l : List Char) (c : Char) (r : List Char)
    (h : takeDigit l = some (c, r)) : c.isDigit = true ∧ l = c :: r := by
  cases l with
  | nil => simp [takeDigit] at h
  | cons a rest =>
    rw [show takeDigit (a :: rest) =
      if a.isDigit then some (a, rest) else none from rfl] at h
    split_ifs at h with hd
    simp only [Option.some.injEq, Prod.mk.injEq] at h
    obtain ⟨rfl, rfl⟩ := h
    exact ⟨hd, rfl⟩

theorem take1Digit_digits (l m r : List Char) (h : take1Digit l = some (m, r)) :
    Digits12 m := by
  unfold take1Digit at h
  cases h1 : takeDigit l with
  | none => rw [h1] at h; simp at h
  | some p =>
    rw [h1] at h
    obtain ⟨a, l1⟩ := p
    simp only [Option.bind_eq_bind, Option.some_bind, Option.pure_def,
      Option.some.injEq, Prod.mk.injEq] at h
    exact Or.inl ⟨a, h.1.symm, (takeDigit_spec l a l1 h1).1⟩

theorem take2Digits_digits (l m r : List Char) (h : take2Digits l = some (m, r)) :
    Digits12 m := by
  unfold take2Digits at h
  cases h1 : takeDigit l with
  | none => rw [h1] at h; simp at h
  | some p =>
    rw [h1] at h
    obtain ⟨a, l1⟩ := p
    simp only [Option.bind_eq_bind, Option.some_bind] at h
    cases h2 : takeDigit l1 with
    | none => rw [h2] at h; simp at h
    | some q =>
      rw [h2] at h
      obtain ⟨b, l2⟩ := q
      simp only [Option.bind_eq_bind, Option.some_bind, Option.pure_def,
        Option.some.injEq, Prod.mk.injEq] at h
      exact Or.inr ⟨a, b, h.1.symm, (takeDigit_spec l a l1 h1).1,
        (takeDigit_spec l1 b l2 h2).1⟩

theorem take4Digits_digits (l m r : List Char) (h : take4Digits l = some (m, r)) :
    Digits4 m := by
  unfold take4Digits at h
  cases h1 : takeDigit l with
  | none => rw [h1] at h; simp at h
  | some p =>
    rw [h1] at h
    obtain ⟨a, l1⟩ := p
    simp only [Option.bind_eq_bind, Option.some_bind] at h
    cases h2 : takeDigit l1 with
    | none => rw [h2] at h; simp at h
    | some q =>
      rw [h2] at h
      obtain ⟨b, l2⟩ := q
      simp only [Option.bind_eq_bind, Option.some_bind] at h
      cases h3 : takeDigit l2 with
      | none => rw [h3] at h; simp at h
      | some u =>
        rw [h3] at h
        obtain ⟨c, l3⟩ := u
        simp only [Option.bind_eq_bind, Option.some_bind] at h
        cases h4 : takeDigit l3 with
        | none => rw [h4] at h; simp at h
        | some w =>
          rw [h4] at h
          obtain ⟨d, l4⟩ := w
          simp only [Option.bind_eq_bind, Option.some_bind, Option.pure_def,
            Option.some.injEq, Prod.mk.injEq] at h
          exact ⟨a, b, c, d, h.1.symm, (takeDigit_spec l a l1 h1).1,
            (takeDigit_spec l1 b l2 h2).1, (takeDigit_spec l2 c l3 h3).1,
            (takeDigit_spec l3 d l4 h4).1⟩

theorem orElse_cases {α : Type} (x : Option α) (f : Unit → Option α) (v : α)
    (h : x.orElse f = some v) : x = some v ∨ f () = some v := by
  cases x with
  | some a => left; simpa [Option.orElse] using h
  | none => right; simpa [Option.orElse] using h

theorem digit_ne_slash (c : Char) (h : c.isDigit = true) : ¬c = '/' :=
  fun he => absurd h (by subst he; decide)

theorem digit_ne_dash (c : Char) (h : c.isDigit = true) : ¬c = '-' :=
  fun he => absurd h (by subst he; decide)

theorem digit_not_sep (c : Char) (h : c.isDigit = true) : isSep c = false := by
  unfold isSep
  simp [digit_ne_slash c h, digit_ne_dash c h]

theorem digit_not_space (c : Char) (h : c.isDigit = true) : isSpaceChar c = false := by
  cases hc : isSpaceChar c with
  | false => rfl
  | true =>
    exfalso
    unfold isSpaceChar at hc
    simp only [Bool.or_eq_true, decide_eq_true_eq] at hc
    rcases hc with ((((rfl | rfl) | rfl) | rfl) | rfl) | rfl <;> exact absurd h (by decide)

theorem digit_map_dash (c : Char) (h : c.isDigit = true) :
    (if c = '-' then '/' else c) = c := if_neg (digit_ne_dash c h)

theorem sep_map_dash (c : Char) (h : isSep c = true) :
    (if c = '-' then '/' else c) = '/' := by
  unfold isSep at h
  simp only [Bool.or_eq_true, decide_eq_true_eq] at h
  rcases h with rfl | rfl <;> rfl

theorem map_dash_digits_id (l : List Char) (h : ∀ c ∈ l, c.isDigit = true) :
    l.map (fun c => if c = '-' then '/' else c) = l := by
  induction l with
  | nil => rfl
  | cons c rest ih =>
    rw [List.map_cons, digit_map_dash c (h c (List.mem_cons_self c rest)),
      ih (fun d hd => h d (List.mem_cons_of_mem c hd))]

theorem dropWhile_head_false (p : Char → Bool) (l : List Char)
    (h : ∀ c ∈ l, p c = false) : l.dropWhile p = l := by
  cases l with
  | nil => rfl
  | cons c rest =>
    rw [List.dropWhile_cons, h c (List.mem_cons_self c rest)]
    simp

theorem pyStrip_id (l : List Char) (h : ∀ c ∈ l, isSpaceChar c = false) :
    pyStrip l = l := by
  unfold pyStrip
  rw [dropWhile_head_false _ _ h,
    dropWhile_head_false _ _ (fun c hc => h c (List.mem_reverse.mp hc)),
    List.reverse_reverse]

theorem splitOnChar_cons (sep c : Char) (rest : List Char) :
    splitOnChar sep (c :: rest) =
      match splitOnChar sep rest with
      | [] => [[]]
      | h :: t => if c = sep then [] :: h :: t else (c :: h) :: t := rfl

theorem splitOnChar_ne_nil (sep : Char) (l : List Char) : splitOnChar sep l ≠ [] := by
  cases l with
  | nil => simp [splitOnChar]
  | cons c rest =>
    rw [splitOnChar_cons]
    cases splitOnChar sep rest with
    | nil => simp
    | cons h t => split_ifs <;> simp

theorem splitOnChar_no_sep (sep : Char) (l : List Char) (h : ∀ c ∈ l, ¬c = sep) :
    splitOnChar sep l = [l] := by
  induction l with
  | nil => rfl
  | cons c rest ih =>
    rw [splitOnChar_cons, ih (fun d hd => h d (List.mem_cons_of_mem c hd))]
    simp [h c (List.mem_cons_self c rest)]

theorem splitOnChar_append (sep : Char) (xs rest : List Char)
    (h : ∀ c ∈ xs, ¬c = sep) :
    splitOnChar sep (xs ++ sep :: rest) = xs :: splitOnChar sep rest := by
  induction xs with
  | nil =>
    simp only [List.nil_append]
    rw [splitOnChar_cons]
    cases hs : splitOnChar sep rest with
    | nil => exact absurd hs (splitOnChar_ne_nil sep rest)
    | cons a t => simp
  | cons c xs ih =>
    rw [List.cons_append, splitOnChar_cons,
      ih (fun d hd => h d (List.mem_cons_of_mem c hd))]
    simp [h c (List.mem_cons_self c xs)]

theorem zfill2_one (a : Char) : zfill2 [a] = ['0', a] := rfl

theorem zfill2_two (a b : Char) : zfill2 [a, b] = [a, b] := rfl

theorem normalize_core_three (day month year : List Char)
    (hd : ∀ c ∈ day, c.isDigit = true) (hm : ∀ c ∈ month, c.isDigit = true)
    (hy : ∀ c ∈ year, c.isDigit = true) :
    normalize_core (day ++ '/' :: (month ++ '/' :: year)) =
      zfill2 day ++ '/' :: (zfill2 month ++ '/' :: year) := by
  unfold normalize_core
  rw [splitOnChar_append '/' day (month ++ '/' :: year)
      (fun c hc => digit_ne_slash c (hd c hc)),
    splitOnChar_append '/' month year (fun c hc => digit_ne_slash c (hm c hc)),
    splitOnChar_no_sep '/' year (fun c hc => digit_ne_slash c (hy c hc))]

theorem normalize_core_two_six (day : List Char) (m1 m2 y1 y2 y3 y4 : Char)
    (hd : ∀ c ∈ day, c.isDigit = true)
    (hm1 : m1.isDigit = true) (hm2 : m2.isDigit = true)
    (hy1 : y1.isDigit = true) (hy2 : y2.isDigit = true)
    (hy3 : y3.isDigit = true) (hy4 : y4.isDigit = true) :
    normalize_core (day ++ '/' :: [m1, m2, y1, y2, y3, y4]) =
      zfill2 day ++ '/' :: (zfill2 [m1, m2] ++ '/' :: [y1, y2, y3, y4]) := by
  unfold normalize_core
  rw [splitOnChar_append '/' day [m1, m2, y1, y2, y3, y4]
      (fun c hc => digit_ne_slash c (hd c hc)),
    splitOnChar_no_sep '/' [m1, m2, y1, y2, y3, y4] (by
      intro c hc
      simp only [List.mem_cons, List.not_mem_nil, or_false] at hc
      rcases hc with rfl | rfl | rfl | rfl | rfl | rfl
      · exact digit_ne_slash _ hm1
      · exact digit_ne_slash _ hm2
      · exact digit_ne_slash _ hy1
      · exact digit_ne_slash _ hy2
      · exact digit_ne_slash _ hy3
      · exact digit_ne_slash _ hy4)]
  rfl

theorem normalize_core_two_five_day2 (a b m1 y1 y2 y3 y4 : Char)
    (ha : a.isDigit = true) (hb : b.isDigit = true) (hm1 : m1.isDigit = true)
    (hy1 : y1.isDigit = true) (hy2 : y2.isDigit = true)
    (hy3 : y3.isDigit = true) (hy4 : y4.isDigit = true) :
    normalize_core ([a, b] ++ '/' :: [m1, y1, y2, y3, y4]) =
      zfill2 [a, b] ++ '/' :: (zfill2 [m1] ++ '/' :: [y1, y2, y3, y4]) := by
  have hsearch : norm_rx_search ([a, b] ++ '/' :: [m1, y1, y2, y3, y4]) =
      some ([a, b], [m1], [y1, y2, y3, y4]) := by
    simp [norm_rx_search, norm_rx_at, norm_rx_go, take2Digits, take1Digit,
      take4Digits, takeDigit, skipOptSep, ha, hb, hm1, hy1, hy2, hy3, hy4,
      digit_not_sep m1 hm1, digit_not_sep y1 hy1, digit_not_sep y2 hy2,
      digit_not_sep y3 hy3, digit_not_sep y4 hy4, Option.orElse,
      (by decide : ('/' : Char).isDigit = false), (by decide : isSep '/' = true)]
  unfold normalize_core
  rw [splitOnChar_append '/' [a, b] [m1, y1, y2, y3, y4] (by
      intro c hc
      simp only [List.mem_cons, List.not_mem_nil, or_false] at hc
      rcases hc with rfl | rfl
      · exact digit_ne_slash _ ha
      · exact digit_ne_slash _ hb),
    splitOnChar_no_sep '/' [m1, y1, y2, y3, y4] (by
      intro c hc
      simp only [List.mem_cons, List.not_mem_nil, or_false] at hc
      rcases hc with rfl | rfl | rfl | rfl | rfl
      · exact digit_ne_slash _ hm1
      · exact digit_ne_slash _ hy1
      · exact digit_ne_slash _ hy2
      · exact digit_ne_slash _ hy3
      · exact digit_ne_slash _ hy4)]
  rw [hsearch]
  rfl

theorem normalize_core_two_five_day1 (a m1 y1 y2 y3 y4 : Char)
    (ha : a.isDigit = true) (hm1 : m1.isDigit = true)
    (hy1 : y1.isDigit = true) (hy2 : y2.isDigit = true)
    (hy3 : y3.isDigit = true) (hy4 : y4.isDigit = true) :
    normalize_core ([a] ++ '/' :: [m1, y1, y2, y3, y4]) =
      zfill2 [a] ++ '/' :: (zfill2 [m1] ++ '/' :: [y1, y2, y3, y4]) := by
  have hsearch : norm_rx_search ([a] ++ '/' :: [m1, y1, y2, y3, y4]) =
      some ([a], [m1], [y1, y2, y3, y4]) := by
    simp [norm_rx_search, norm_rx_at, norm_rx_go, take2Digits, take1Digit,
      take4Digits, takeDigit, skipOptSep, ha, hm1, hy1, hy2, hy3, hy4,
      digit_not_sep m1 hm1, digit_not_sep y1 hy1, digit_not_sep y2 hy2,
      digit_not_sep y3 hy3, digit_not_sep y4 hy4, Option.orElse,
      (by decide : ('/' : Char).isDigit = false), (by decide : isSep '/' = true)]
  unfold normalize_core
  rw [splitOnChar_append '/' [a] [m1, y1, y2, y3, y4] (by
      intro c hc
      simp only [List.mem_cons, List.not_mem_nil, or_false] at hc
      rcases hc with rfl
      exact digit_ne_slash _ ha),
    splitOnChar_no_sep '/' [m1, y1, y2, y3, y4] (by
      intro c hc
      simp only [List.mem_cons, List.not_mem_nil, or_false] at hc
      rcases hc with rfl | rfl | rfl | rfl | rfl
      · exact digit_ne_slash _ hm1
      · exact digit_ne_slash _ hy1
      · exact digit_ne_slash _ hy2
      · exact digit_ne_slash _ hy3
      · exact digit_ne_slash _ hy4)]
  rw [hsearch]
  rfl

theorem isDDMMYYYY_build (day month : List Char) (y1 y2 y3 y4 : Char)
    (hday : Digits12 day) (hmonth : Digits12 month)
    (hy1 : y1.isDigit = true) (hy2 : y2.isDigit = true)
    (hy3 : y3.isDigit = true) (hy4 : y4.isDigit = true) :
    isDDMMYYYY (zfill2 day ++ '/' :: (zfill2 month ++ '/' :: [y1, y2, y3, y4])) =
      true := by
  rcases hday with ⟨a, rfl, ha⟩ | ⟨a, b, rfl, ha, hb⟩ <;>
    rcases hmonth with ⟨m1, rfl, hm1⟩ | ⟨m1, m2, rfl, hm1, hm2⟩ <;>
      simp [zfill2_one, zfill2_two, isDDMMYYYY, ha, hm1, hy1, hy2, hy3, hy4,
        (by decide : ('0' : Char).isDigit = true)] <;>
      simp_all

theorem normalize_shape (dm : DateMatch) (h : StructOK dm) :
    isDDMMYYYY (normalize_date dm.render) = true := by
  obtain ⟨hday, hsep1, hmonth, hsep2, hyear⟩ := h
  obtain ⟨y1, y2, y3, y4, hyeq, hy1, hy2, hy3, hy4⟩ := hyear
  have hyd : ∀ c ∈ [y1, y2, y3, y4], c.isDigit = true := by
    intro c hc
    simp only [List.mem_cons, List.not_mem_nil, or_false] at hc
    rcases hc with rfl | rfl | rfl | rfl
    exacts [hy1, hy2, hy3, hy4]
  have hdayd : ∀ c ∈ dm.day, c.isDigit = true := by
    rcases hday with ⟨a, hda, ha⟩ | ⟨a, b, hda, ha, hb⟩ <;> rw [hda] <;>
      intro c hc <;> simp only [List.mem_cons, List.not_mem_nil, or_false] at hc
    · rcases hc with rfl; exact ha
    · rcases hc with rfl | rfl
      exacts [ha, hb]
  have hmonthd : ∀ c ∈ dm.month, c.isDigit = true := by
    rcases hmonth with ⟨a, hma, ha⟩ | ⟨a, b, hma, ha, hb⟩ <;> rw [hma] <;>
      intro c hc <;> simp only [List.mem_cons, List.not_mem_nil, or_false] at hc
    · rcases hc with rfl; exact ha
    · rcases hc with rfl | rfl
      exacts [ha, hb]
  unfold normalize_date
  cases hs2 : dm.sep2 with
  | some s2c =>
    have hs2c : isSep s2c = true := by rw [hs2] at hsep2; exact hsep2
    have hrender : dm.render =
        dm.day ++ dm.sep1 :: (dm.month ++ [s2c] ++ [y1, y2, y3, y4]) := by
      unfold DateMatch.render
      rw [hs2, hyeq]
    rw [hrender]
    have hmap : (dm.day ++ dm.sep1 :: (dm.month ++ [s2c] ++ [y1, y2, y3, y4])).map
        (fun c => if c = '-' then '/' else c) =
        dm.day ++ '/' :: (dm.month ++ '/' :: [y1, y2, y3, y4]) := by
      simp only [List.map_append, List.map_cons, List.map_nil,
        map_dash_digits_id dm.day hdayd, map_dash_digits_id dm.month hmonthd,
        sep_map_dash dm.sep1 hsep1, sep_map_dash s2c hs2c,
        digit_map_dash y1 hy1, digit_map_dash y2 hy2, digit_map_dash y3 hy3,
        digit_map_dash y4 hy4, List.append_assoc, List.singleton_append]
    rw [hmap, pyStrip_id _ (by
      intro c hc
      simp only [List.mem_append, List.mem_cons, List.not_mem_nil, or_false] at hc
      rcases hc with hc | rfl | hc | rfl | rfl | rfl | rfl | rfl
      · exact digit_not_space c (hdayd c hc)
      · decide
      · exact digit_not_space c (hmonthd c hc)
      · decide
      · exact digit_not_space _ hy1
      · exact digit_not_space _ hy2
      · exact digit_not_space _ hy3
      · exact digit_not_space _ hy4)]
    rw [normalize_core_three dm.day dm.month [y1, y2, y3, y4] hdayd hmonthd hyd]
    exact isDDMMYYYY_build dm.day dm.month y1 y2 y3 y4 hday hmonth hy1 hy2 hy3 hy4
  | none =>
    rcases hmonth with ⟨m1, hma, hm1⟩ | ⟨m1, m2, hma, hm1, hm2⟩
    · rcases hday with ⟨a, hda, ha⟩ | ⟨a, b, hda, ha, hb⟩
      · have hrender : dm.render = [a] ++ dm.sep1 :: [m1, y1, y2, y3, y4] := by
          unfold DateMatch.render
          rw [hs2, hyeq, hda, hma]
          rfl
        rw [hrender]
        have hmap : (([a] ++ dm.sep1 :: [m1, y1, y2, y3, y4]).map
            (fun c => if c = '-' then '/' else c)) =
            [a] ++ '/' :: [m1, y1, y2, y3, y4] := by
          simp only [List.map_append, List.map_cons, List.map_nil,
            sep_map_dash dm.sep1 hsep1, digit_map_dash a ha,
            digit_map_dash m1 hm1, digit_map_dash y1 hy1, digit_map_dash y2 hy2,
            digit_map_dash y3 hy3, digit_map_dash y4 hy4]
        rw [hmap, pyStrip_id _ (by
          intro c hc
          simp only [List.mem_append, List.mem_cons, List.not_mem_nil, or_false] at hc
          rcases hc with rfl | rfl | rfl | rfl | rfl | rfl | rfl
          · exact digit_not_space _ ha
          · decide
          · exact digit_not_space _ hm1
          · exact digit_not_space _ hy1
          · exact digit_not_space _ hy2
          · exact digit_not_space _ hy3
          · exact digit_not_space _ hy4)]
        rw [normalize_core_two_five_day1 a m1 y1 y2 y3 y4 ha hm1 hy1 hy2 hy3 hy4]
        exact isDDMMYYYY_build [a] [m1] y1 y2 y3 y4 (Or.inl ⟨a, rfl, ha⟩)
          (Or.inl ⟨m1, rfl, hm1⟩) hy1 hy2 hy3 hy4
      · have hrender : dm.render = [a, b] ++ dm.sep1 :: [m1, y1, y2, y3, y4] := by
          unfold DateMatch.render
          rw [hs2, hyeq, hda, hma]
          rfl
        rw [hrender]
        have hmap : (([a, b] ++ dm.sep1 :: [m1, y1, y2, y3, y4]).map
            (fun c => if c = '-' then '/' else c)) =
            [a, b] ++ '/' :: [m1, y1, y2, y3, y4] := by
          simp only [List.map_append, List.map_cons, List.map_nil,
            sep_map_dash dm.sep1 hsep1, digit_map_dash a ha, digit_map_dash b hb,
            digit_map_dash m1 hm1, digit_map_dash y1 hy1, digit_map_dash y2 hy2,
            digit_map_dash y3 hy3, digit_map_dash y4 hy4]
        rw [hmap, pyStrip_id _ (by
          intro c hc
          simp only [List.mem_append, List.mem_cons, List.not_mem_nil, or_false] at hc
          rcases hc with (rfl | rfl) | rfl | rfl | rfl | rfl | rfl | rfl
          · exact digit_not_space _ ha
          · exact digit_not_space _ hb
          · decide
          · exact digit_not_space _ hm1
          · exact digit_not_space _ hy1
          · exact digit_not_space _ hy2
          · exact digit_not_space _ hy3
          · exact digit_not_space _ hy4)]
        rw [normalize_core_two_five_day2 a b m1 y1 y2 y3 y4 ha hb hm1 hy1 hy2 hy3 hy4]
        exact isDDMMYYYY_build [a, b] [m1] y1 y2 y3 y4 (Or.inr ⟨a, b, rfl, ha, hb⟩)
          (Or.inl ⟨m1, rfl, hm1⟩) hy1 hy2 hy3 hy4
    · have hrender : dm.render =
          dm.day ++ dm.sep1 :: [m1, m2, y1, y2, y3, y4] := by
        unfold DateMatch.render
        rw [hs2, hyeq, hma]
        rfl
      rw [hrender]
      have hmap : ((dm.day ++ dm.sep1 :: [m1, m2, y1, y2, y3, y4]).map
          (fun c => if c = '-' then '/' else c)) =
          dm.day ++ '/' :: [m1, m2, y1, y2, y3, y4] := by
        simp only [List.map_append, List.map_cons, List.map_nil,
          map_dash_digits_id dm.day hdayd, sep_map_dash dm.sep1 hsep1,
          digit_map_dash m1 hm1, digit_map_dash m2 hm2,
          digit_map_dash y1 hy1, digit_map_dash y2 hy2,
          digit_map_dash y3 hy3, digit_map_dash y4 hy4]
      rw [hmap, pyStrip_id _ (by
        intro c hc
        simp only [List.mem_append, List.mem_cons, List.not_mem_nil, or_false] at hc
        rcases hc with hc | rfl | rfl | rfl | rfl | rfl | rfl | rfl
        · exact digit_not_space c (hdayd c hc)
        · decide
        · exact digit_not_space _ hm1
        · exact digit_not_space _ hm2
        · exact digit_not_space _ hy1
        · exact digit_not_space _ hy2
        · exact digit_not_space _ hy3
        · exact digit_not_space _ hy4)]
      rw [normalize_core_two_six dm.day m1 m2 y1 y2 y3 y4 hdayd hm1 hm2
        hy1 hy2 hy3 hy4]
      exact isDDMMYYYY_build dm.day [m1, m2] y1 y2 y3 y4 hday
        (Or.inr ⟨m1, m2, rfl, hm1, hm2⟩) hy1 hy2 hy3 hy4

theorem dateSepYear_spec (l : List Char) (s2 : Option Char) (y r : List Char)
    (h : dateSepYear l = some (s2, y, r)) : SepOpt s2 ∧ Digits4 y := by
  cases l with
  | nil => simp [dateSepYear] at h
  | cons c rest =>
    rw [show dateSepYear (c :: rest) =
      (if isSep c then (take4Digits rest).map (fun p => (some c, p.1, p.2))
       else (take4Digits (c :: rest)).map
         (fun p => ((none : Option Char), p.1, p.2))) from rfl] at h
    split_ifs at h with hsep
    · cases h4 : take4Digits rest with
      | none => rw [h4] at h; simp at h
      | some p =>
        rw [h4] at h
        obtain ⟨y', r'⟩ := p
        simp only [Option.map_some', Option.some.injEq, Prod.mk.injEq] at h
        obtain ⟨rfl, rfl, rfl⟩ := h
        exact ⟨hsep, take4Digits_digits rest y' r' h4⟩
    · cases h4 : take4Digits (c :: rest) with
      | none => rw [h4] at h; simp at h
      | some p =>
        rw [h4] at h
        obtain ⟨y', r'⟩ := p
        simp only [Option.map_some', Option.some.injEq, Prod.mk.injEq] at h
        obtain ⟨rfl, rfl, rfl⟩ := h
        exact ⟨trivial, take4Digits_digits _ y' r' h4⟩

theorem dateDayTail_spec (l : List Char)
    (takeD takeM : List Char → Option (List Char × List Char))
    (hD : ∀ l' m r, takeD l' = some (m, r) → Digits12 m)
    (hM : ∀ l' m r, takeM l' = some (m, r) → Digits12 m)
    (dm : DateMatch) (r : List Char)
    (h : dateDayTail l takeD takeM = some (dm, r)) : StructOK dm := by
  unfold dateDayTail at h
  cases h1 : takeD l with
  | none => rw [h1] at h; simp at h
  | some p =>
    rw [h1] at h
    obtain ⟨d, l1⟩ := p
    simp only [Option.bind_eq_bind, Option.some_bind] at h
    cases l1 with
    | nil => simp [dateDayRest] at h
    | cons c l2 =>
      rw [show dateDayRest takeM d (c :: l2) =
        (if isSep c then do
          let (m, l3) ← takeM l2
          let (s2, y, l4) ← dateSepYear l3
          pure ({ day := d, sep1 := c, month := m, sep2 := s2, year := y }, l4)
        else none) from rfl] at h
      split_ifs at h with hsep
      cases h2 : takeM l2 with
      | none => rw [h2] at h; simp at h
      | some q =>
        rw [h2] at h
        obtain ⟨mo, l3⟩ := q
        simp only [Option.bind_eq_bind, Option.some_bind] at h
        cases h3 : dateSepYear l3 with
        | none => rw [h3] at h; simp at h
        | some u =>
          rw [h3] at h
          obtain ⟨s2, y, l4⟩ := u
          simp only [Option.bind_eq_bind, Option.some_bind, Option.pure_def,
            Option.some.injEq, Prod.mk.injEq] at h
          obtain ⟨hsy1, hsy2⟩ := dateSepYear_spec l3 s2 y l4 h3
          rw [← h.1]
          exact ⟨hD l d (c :: l2) h1, hsep, hM l2 mo l3 h2, hsy1, hsy2⟩

theorem date_match_at_struct (l : List Char) (dm : DateMatch) (r : List Char)
    (h : date_match_at l = some (dm, r)) : StructOK dm := by
  unfold date_match_at at h
  rcases orElse_cases _ _ _ h with h | h
  · exact dateDayTail_spec l _ _ take2Digits_digits take2Digits_digits dm r h
  rcases orElse_cases _ _ _ h with h | h
  · exact dateDayTail_spec l _ _ take2Digits_digits take1Digit_digits dm r h
  rcases orElse_cases _ _ _ h with h | h
  · exact dateDayTail_spec l _ _ take1Digit_digits take2Digits_digits dm r h
  · exact dateDayTail_spec l _ _ take1Digit_digits take1Digit_digits dm r h

theorem date_search_from_struct (l : List Char) :
    ∀ (i j : Nat) (dm : DateMatch) (r : List Char),
      date_search_from l i = some (j, dm, r) → StructOK dm := by
  induction l with
  | nil => intro i j dm r h; simp [date_search_from] at h
  | cons c rest ih =>
    intro i j dm r h
    rw [date_search_from] at h
    cases hm : date_match_at (c :: rest) with
    | some p =>
      rw [hm] at h
      obtain ⟨dm', r'⟩ := p
      simp only [Option.some.injEq, Prod.mk.injEq] at h
      obtain ⟨-, rfl, -⟩ := h
      exact date_match_at_struct (c :: rest) dm' r' hm
    | none =>
      rw [hm] at h
      exact ih (i + 1) j dm r h

theorem date_search_struct (l : List Char) (dm : DateMatch)
    (h : date_search l = some dm) : StructOK dm := by
  unfold date_search at h
  cases hs : date_search_from l 0 with
  | none => rw [hs] at h; simp at h
  | some p =>
    rw [hs] at h
    obtain ⟨j, dm', r⟩ := p
    simp only [Option.map_some', Option.some.injEq] at h
    exact h ▸ date_search_from_struct l 0 j dm' r hs

theorem date_find_all_aux_struct (fuel : Nat) :
    ∀ (l : List Char) (i j : Nat) (dm : DateMatch),
      (j, dm) ∈ date_find_all_aux fuel l i → StructOK dm := by
  induction fuel with
  | zero => intro l i j dm h; simp [date_find_all_aux] at h
  | succ f ih =>
    intro l i j dm h
    rw [date_find_all_aux] at h
    cases hs : date_search_from l i with
    | none => rw [hs] at h; simp at h
    | some p =>
      rw [hs] at h
      obtain ⟨j', dm', rest⟩ := p
      simp only [List.mem_cons] at h
      rcases h with h | h
      · injection h with h1 h2
        subst h2
        exact date_search_from_struct l i j' _ rest hs
      · exact ih rest _ j dm h

theorem try_candidate_norm (cand v : List Char) (h : try_candidate cand = some v) :
    ∃ dm, StructOK dm ∧ v = normalize_date dm.render := by
  unfold try_candidate at h
  split at h
  next hs => simp at h
  next dm hs =>
    split_ifs at h with hv
    injection h with h'
    exact ⟨dm, date_search_struct cand dm hs, h'.symm⟩

theorem first_valid_candidate_norm (cs : List (List Char)) (v : List Char)
    (h : first_valid_candidate cs = some v) :
    ∃ dm, StructOK dm ∧ v = normalize_date dm.render := by
  induction cs with
  | nil => simp [first_valid_candidate] at h
  | cons c cs ih =>
    rw [first_valid_candidate] at h
    cases ht : try_candidate c with
    | some n =>
      rw [ht] at h
      injection h with h'
      subst h'
      exact try_candidate_norm c _ ht
    | none =>
      rw [ht] at h
      exact ih h

theorem labeled_lines_scan_norm (lns : List (List Char)) (v : List Char)
    (h : labeled_lines_scan lns = some v) :
    ∃ dm, StructOK dm ∧ v = normalize_date dm.render := by
  induction lns with
  | nil => simp [labeled_lines_scan] at h
  | cons ln rest ih =>
    rw [labeled_lines_scan] at h
    split_ifs at h with hl
    · cases hf : first_valid_candidate (generate_date_candidates ln) with
      | some n =>
        rw [hf] at h
        injection h with h'
        subst h'
        exact first_valid_candidate_norm _ _ hf
      | none =>
        rw [hf] at h
        exact ih h
    · exact ih h

theorem fallback_scan_norm (text : List Char) (ms : List (Nat × DateMatch))
    (v : List Char) (hms : ∀ j dm, (j, dm) ∈ ms → StructOK dm)
    (h : fallback_scan text ms = some v) :
    ∃ dm, StructOK dm ∧ v = normalize_date dm.render := by
  induction ms with
  | nil => simp [fallback_scan] at h
  | cons p rest ih =>
    obtain ⟨j, dm⟩ := p
    rw [fallback_scan] at h
    split_ifs at h with hk
    · exact ih (fun j' dm' hmem => hms j' dm' (List.mem_cons_of_mem _ hmem)) h
    · injection h with h'
      exact ⟨dm, hms j dm (List.mem_cons_self _ _), h'.symm⟩

/-- C6 amended: every value date-of-birth extraction returns is in canonical
shape DD/MM/YYYY: two zero-padded digits, slash, two zero-padded digits,
slash, four digits; the day/month range bounds hold only in the labeled-line
branch. -/
theorem extract_dob_shape (text v : String) (h : extract_dob text = some v) :
    isDDMMYYYY v.data = true := by
  unfold extract_dob at h
  cases hl : labeled_lines_scan (pySplitlines text.data) with
  | some n =>
    rw [hl] at h
    injection h with h'
    obtain ⟨dm, hst, hn⟩ := labeled_lines_scan_norm _ n hl
    rw [← h', show (String.mk n).data = n from rfl, hn]
    exact normalize_shape dm hst
  | none =>
    rw [hl] at h
    cases hf : fallback_scan text.data (date_find_all text.data) with
    | none => rw [hf] at h; simp at h
    | some n =>
      rw [hf] at h
      simp only [Option.map_some'] at h
      injection h with h'
      obtain ⟨dm, hst, hn⟩ := fallback_scan_norm text.data _ n
        (fun j dm hm => date_find_all_aux_struct _ _ _ j dm hm) hf
      rw [← h', show (String.mk n).data = n from rfl, hn]
      exact normalize_shape dm hst

/-- C6 witness: the shape theorem applied to the concrete fallback result
`"99/99/1995"`. -/
theorem extract_dob_shape_witness :
    isDDMMYYYY ("99/99/1995" : String).data = true :=
  extract_dob_shape "99/99/1995" "99/99/1995" (by decide)

/-! ### C7: the age check -/

/-- C7: the age check is total and fail-closed — every string whose date part
fails the `%d/%m/%Y` parse yields false at every evaluation time (the
function is total, so no exception escapes), `"not-a-date"` in particular —
and `"01/01/2000"` yields true at every current date from 2018-01-01 on. -/
theorem age_check_fail_closed_and_boundary :
    (∀ s : String, ∀ nowOrd : ℤ,
      strptime_dmY (s.data.map (fun c => if c = '-' then '/' else c)) = none →
        is_age_above_18 s nowOrd = false) ∧
    (∀ nowOrd : ℤ, is_age_above_18 "not-a-date" nowOrd = false) ∧
    (∀ nowOrd : ℤ, (toOrdinal 2018 1 1 : ℤ) ≤ nowOrd →
      is_age_above_18 "01/01/2000" nowOrd = true) := by
  refine ⟨?_, ?_, ?_⟩
  · intro s nowOrd h
    unfold is_age_above_18
    rw [h]
  · intro nowOrd
    unfold is_age_above_18
    rw [show strptime_dmY
      ("not-a-date".data.map (fun c => if c = '-' then '/' else c)) = none from by decide]
  · intro nowOrd hnow
    have hcal : is_age_above_18 "01/01/2000" nowOrd =
        decide (18 ≤ (nowOrd - (730120 : ℤ)).fdiv 365) := by
      unfold is_age_above_18
      rw [show strptime_dmY
        ("01/01/2000".data.map (fun c => if c = '-' then '/' else c)) =
          some (1, 1, 2000) from by decide]
      show decide (18 ≤ (nowOrd - ((toOrdinal 2000 1 1 : ℕ) : ℤ)).fdiv 365) = _
      rw [show ((toOrdinal 2000 1 1 : ℕ) : ℤ) = (730120 : ℤ) from by decide]
    rw [show ((toOrdinal 2018 1 1 : ℕ) : ℤ) = (736695 : ℤ) from by decide] at hnow
    rw [hcal, Int.fdiv_eq_ediv _ (by norm_num), decide_eq_true_eq]
    omega

/-- C7 witness: the theorem applied on 2025-01-01 (ordinal 739252) to
`"not-a-date"` and `"01/01/2000"`, and the fail-closed part to `"x"`. -/
theorem age_check_witness :
    is_age_above_18 "not-a-date" 739252 = false ∧
    is_age_above_18 "01/01/2000" 739252 = true ∧
    is_age_above_18 "x" 739252 = false :=
  ⟨age_check_fail_closed_and_boundary.2.1 739252,
   age_check_fail_closed_and_boundary.2.2 739252 (by decide),
   age_check_fail_closed_and_boundary.1 "x" 739252 (by decide)⟩

end KYC
